import Mathlib

/-!
A shallow embedding of the `tiandh987/errors` Go library.

Modelling conventions, used throughout:
* A Go `error` value is `Option GoError` (`none` models the nil error).
* Go `int` is `Int`; Go strings are Lean `String`s.  `fmt.Sprintf`/`fmt.Errorf`
  applied to a format string and arguments is modelled as the already-formatted
  resulting string (the claims never depend on printf verb expansion), so the
  constructors below take the message directly.
* The process-global registry `var codes = map[int]Coder{}` is passed around
  explicitly as a value of type `Registry`; a map update is modelled by
  prepending the binding, a map read by the first matching binding.
* Stack captures (`callers()`) are never inspected by any plain-form render the
  claims exercise, so chain links do not carry the program counters themselves;
  `buildFormatInfo` records whether the link has a (always non-nil) stack.
  Frame resolution, which claim C10 is about, is modelled separately with an
  explicit symbol-table oracle standing for `runtime.FuncForPC`/`FileLine`.
-/

namespace TErrors

/-- Coder descriptor (`defaultCoder` in code.go): integer code `C`, HTTP status,
external (user-visible) text `Ext`, reference URL `Ref`. -/
structure Coder where
  C : Int
  HTTP : Int
  Ext : String
  Ref : String
deriving DecidableEq

/-- The reserved code-0 Coder (code.go): status 500 (`http.StatusInternalServerError`),
generic external text. -/
def unknownCoder : Coder :=
  ⟨0, 500, "An internal server error occurred", "http://github.com/tiandh987/errors/README.md"⟩

/-- The registry `var codes = map[int]Coder{}` as an association list; the most
recent insertion is at the head. -/
abbrev Registry := List (Int × Coder)

/-- Go map read `codes[c]` (`coder, ok := codes[v.code]`): first matching binding,
i.e. the most recently inserted one, as for a Go map overwritten in place. -/
def lookupCoder? (r : Registry) (c : Int) : Option Coder :=
  match r with
  | [] => none
  | (k, co) :: rest => if k = c then some co else lookupCoder? rest c

/-- Map read with the unknown fallback, the pattern
`coder, ok := codes[err.code]; if !ok { coder = unknownCoder }` used by
`buildFormatInfo` (and the `lookup` operation of the spec). -/
def lookupCoder (r : Registry) (c : Int) : Coder :=
  match lookupCoder? r c with
  | some co => co
  | none => unknownCoder

/-- The registry as initialized by `init()`: just the code-0 unknown Coder. -/
def codes0 : Registry := [(0, unknownCoder)]

/-- `Register` (code.go): aborts (`none`) on the reserved code 0, otherwise
inserts, overwriting any existing binding for the same code. -/
def Register (r : Registry) (co : Coder) : Option Registry :=
  if co.C = 0 then none else some ((co.C, co) :: r)

/-- `MustRegister` (code.go): aborts (`none`) on the reserved code 0 and also
when the code is already registered. -/
def MustRegister (r : Registry) (co : Coder) : Option Registry :=
  if co.C = 0 then none
  else if (lookupCoder? r co.C).isSome then none
  else some ((co.C, co) :: r)

/-- The error values of the library (errors.go, plus the aggregate of the
aggregation file).  `base` stands for a foreign error value (one produced
outside this package, e.g. by the standard library) that has none of the
chain/aggregate capabilities; its only observable is its `Error()` text.
`withCode.errText` is the `Error()` text of the link's `err` field, which is
always a plain `fmt.Errorf` leaf (see `WithCode`/`Wrap`/`Wrapf`/`WrapC`).
`withCode.cause` may genuinely be nil (a freshly originated coded error), hence
the `Option`; `withMessage`/`withStack` are only ever built around a non-nil
error by the constructors below. -/
inductive GoError where
  | fundamental (msg : String)
  | base (msg : String)
  | withMessage (cause : GoError) (msg : String)
  | withStack (err : GoError)
  | withCode (errText : String) (code : Int) (cause : Option GoError)
  | agg (errs : List GoError)

/-- A Go `error` value: `none` is the nil error. -/
abbrev GoErr := Option GoError

/-- `New` (errors.go): a fundamental leaf. -/
def New (message : String) : GoErr := some (.fundamental message)

/-- `Errorf` (errors.go): a fundamental leaf with the formatted message. -/
def Errorf (msg : String) : GoErr := some (.fundamental msg)

/-- `WithCode` (errors.go): a fresh coded error, `cause` nil. -/
def WithCode (code : Int) (msg : String) : GoErr := some (.withCode msg code none)

/-- `WithStack` (errors.go): nil in, nil out; re-stacks a withCode link into a
new withCode link whose cause is the original link; otherwise wraps in a
withStack link. -/
def WithStack : GoErr → GoErr
  | none => none
  | some (.withCode m c cz) => some (.withCode m c (some (.withCode m c cz)))
  | some e => some (.withStack e)

/-- `WithMessage` (errors.go): nil in, nil out; otherwise a withMessage link. -/
def WithMessage : GoErr → String → GoErr
  | none, _ => none
  | some e, message => some (.withMessage e message)

/-- `WithMessagef` (errors.go): as `WithMessage` with the formatted message. -/
def WithMessagef : GoErr → String → GoErr
  | none, _ => none
  | some e, msg => some (.withMessage e msg)

/-- `Wrap` (errors.go): nil in, nil out; a withCode link is re-annotated as a
new withCode link (new message, same code, cause = the original link);
any other error is wrapped first in a withMessage shell, then a withStack
shell. -/
def Wrap : GoErr → String → GoErr
  | none, _ => none
  | some (.withCode m c cz), message => some (.withCode message c (some (.withCode m c cz)))
  | some e, message => some (.withStack (.withMessage e message))

/-- `Wrapf` (errors.go): as `Wrap` with the formatted message. -/
def Wrapf : GoErr → String → GoErr
  | none, _ => none
  | some (.withCode m c cz), msg => some (.withCode msg c (some (.withCode m c cz)))
  | some e, msg => some (.withStack (.withMessage e msg))

/-- `WrapC` (errors.go): nil in, nil out; otherwise always a new withCode link
over the given error. -/
def WrapC : GoErr → Int → String → GoErr
  | none, _, _ => none
  | some e, code, msg => some (.withCode msg code (some e))

/-- Whether the dynamic type has an `Unwrap() error` method
(the `e.(interface{ Unwrap() error })` assertion): true exactly for
withCode (value receiver, promoted to the pointer), withMessage and withStack;
fundamental, foreign and aggregate errors have no such method. -/
def hasUnwrapMethod : GoError → Bool
  | .withCode _ _ _ => true
  | .withMessage _ _ => true
  | .withStack _ => true
  | _ => false

/-- The result of calling `Unwrap()` on an error: `none` when the dynamic type
has no `Unwrap` method, `some r` when it does and returns `r` (itself a
possibly-nil error).  withCode and withMessage return their `cause` field;
`withStack.Unwrap` (errors.go lines 203-209) first tests whether the wrapped
error itself has an `Unwrap` method and, if so, returns *that* error's
`Unwrap()` — otherwise it returns the wrapped error. -/
def unwrapMethod : GoError → Option GoErr
  | .withCode _ _ cz => some cz
  | .withMessage e _ => some (some e)
  | .withStack e =>
    match unwrapMethod e with
    | some r => some r
    | none => some (some e)
  | .fundamental _ => none
  | .base _ => none
  | .agg _ => none

/-- The result of calling `Cause()` on an error (`none`: no such method):
withCode and withMessage return their `cause` field, withStack returns the
wrapped error itself. -/
def causeMethod : GoError → Option GoErr
  | .withCode _ _ cz => some cz
  | .withMessage e _ => some (some e)
  | .withStack e => some (some e)
  | _ => none

/-- `IsCode` (code.go): only a `*withCode` value can match; its own code is
compared first, then the search recurses into the `cause` field when that is
non-nil.  Any other dynamic type (and the nil error) yields false. -/
def IsCode : GoErr → Int → Bool
  | some (.withCode _ c cz), code =>
    if c = code then true
    else
      match cz with
      | some cause => IsCode (some cause) code
      | none => false
  | _, _ => false

/-- Specification-side view for claim C4: the codes carried by the maximal
prefix of withCode links along the `cause` field ("the direct cause chain,
stopping at the first non-withCode link"). -/
def codeChain : GoError → List Int
  | .withCode _ c (some cause) => c :: codeChain cause
  | .withCode _ c none => [c]
  | _ => []

/-- `ParseCoder` (code.go): nil for the nil error; for a `*withCode` value the
registered Coder of its code when registered; the unknown Coder in every other
case (a withCode with an unregistered code, and every other dynamic type). -/
def ParseCoder (r : Registry) : GoErr → Option Coder
  | none => none
  | some (.withCode _ c _) =>
    match lookupCoder? r c with
    | some coder => some coder
    | none => some unknownCoder
  | some _ => some unknownCoder

mutual

/-- The `Error()` text of each variant.  fundamental and withMessage return
their own message; withStack delegates to the wrapped error (promoted method);
a foreign error returns its text; the aggregate case is `aggregate.Error`:
empty slice renders "", a single element renders that element's text, and two
or more elements run the deduplicating visit (`visitCollect`) and bracket the
result when more than one distinct message was seen.
The withCode case is `fmt.Sprintf("%v", w)`: its verb-'v' no-flag render, which
always produces "<nil>" — `format` returns a nil buffer pointer that the loop
in `withCode.Format` assigns over its `str` variable, and `bytes.Buffer.String()`
on a nil buffer returns "<nil>"; theorem `withCodeErrorV_eq` below proves that
the modelled pipeline (`withCodeErrorV`) yields exactly this constant for every
registry and every withCode link. -/
def errorMsg : GoError → String
  | .fundamental m => m
  | .base m => m
  | .withMessage _ m => m
  | .withStack e => errorMsg e
  | .withCode _ _ _ => "<nil>"
  | .agg l =>
    match l with
    | [] => ""
    | [e] => errorMsg e
    | a :: b :: rest =>
      let p := visitCollect (a :: b :: rest) [] ""
      if p.1.length = 1 then p.2 else "[" ++ p.2 ++ "]"
termination_by e => sizeOf e
decreasing_by all_goals (simp_wf; try omega)

/-- `aggregate.visit` threaded with the closure of `aggregate.Error`: walk the
elements, recursing into nested `aggregate` values (the only implementation of
the Aggregate interface in this package), and for every other element take its
message; a message already in the seen set is skipped, otherwise it is
inserted and appended to the result, preceded by ", " whenever the seen set
then holds more than one message.  The Go string set is modelled as the list
of its members in insertion order (it never holds duplicates here, so its
`len` is the list length). -/
def visitCollect : List GoError → List String → String → List String × String
  | [], seen, acc => (seen, acc)
  | .agg inner :: rest, seen, acc =>
    let p := visitCollect inner seen acc
    visitCollect rest p.1 p.2
  | e :: rest, seen, acc =>
    let m := errorMsg e
    if m ∈ seen then visitCollect rest seen acc
    else
      visitCollect rest (seen ++ [m])
        (if (seen ++ [m]).length > 1 then acc ++ ", " ++ m else acc ++ m)
termination_by l _ _ => sizeOf l
decreasing_by all_goals (simp_wf; try omega)

end

/-- `formatInfo` (format.go).  The `stack` field is a pointer only tested for
nil-ness on the paths the claims exercise, so it is modelled by `hasStack`
(fundamental, withStack and withCode links always carry a freshly captured
stack). -/
structure FormatInfo where
  code : Int
  message : String
  err : String
  hasStack : Bool
deriving DecidableEq

/-- `buildFormatInfo` (format.go): per-variant format information.  For a
withCode link the code's registered Coder (unknown fallback) supplies the
external message unless its text is empty, in which case the link's own raw
text is used; every other variant uses its own `Error()` text and the unknown
code. -/
def buildFormatInfo (r : Registry) : GoError → FormatInfo
  | .fundamental m => ⟨unknownCoder.C, m, m, true⟩
  | .withStack e => ⟨unknownCoder.C, errorMsg e, errorMsg e, true⟩
  | .withCode m c _ =>
    let coder := lookupCoder r c
    let extMsg := if coder.Ext = "" then m else coder.Ext
    ⟨coder.C, extMsg, m, true⟩
  | e => ⟨unknownCoder.C, errorMsg e, errorMsg e, false⟩

/-- What one call to `format` (format.go) does on the plain path
(`flagDetail = flagTrace = modeJSON = false`), the only path any claim
exercises: it prints `finfo.message` into the buffer `str` it was handed
(`written` is that buffer object's contents afterwards; `none` models a nil
buffer) and then — `return jsonData, nil` in the source — hands a *nil* buffer
pointer back to the caller, which is `ret`. -/
structure FormatRet where
  written : Option String
  ret : Option String
deriving DecidableEq

def formatPlain (str : Option String) (finfo : FormatInfo) : FormatRet :=
  ⟨str.map (fun s => s ++ finfo.message), none⟩

/-- Membership of a character in the cutset of `strings.Trim(s, "\r\n\t")`. -/
def isTrimChar (c : Char) : Bool := c == '\r' || c == '\n' || c == '\t'

/-- `strings.Trim(s, "\r\n\t")`: strip the cutset characters from both ends. -/
def goTrim (s : String) : String :=
  String.mk (((s.toList.dropWhile isTrimChar).reverse.dropWhile isTrimChar).reverse)

/-- `bytes.Buffer.String()`: the contents, except that on a nil buffer pointer
it returns the special value "<nil>". -/
def bufString : Option String → String
  | none => "<nil>"
  | some s => s

/-- The verb-'v' no-flag rendering path of `withCode.Format` (errors.go lines
74-122) — the path `Error()` takes via `fmt.Sprintf("%v", w)`.  `errs :=
list(w)` always starts with `w` itself, so the first loop iteration formats
`w`; the call to `format` returns a nil buffer pointer which the loop assigns
over `str`; `flagTrace` being false breaks the loop immediately after; the
final output is `strings.Trim(str.String(), "\r\n\t")` on the now-nil buffer. -/
def withCodeErrorV (r : Registry) (w : GoError) : String :=
  let str : Option String := some ""
  let fr := formatPlain str (buildFormatInfo r w)
  goTrim (bufString fr.ret)

/-- The default (non-'v') verb branch of `withCode.Format`:
`fmt.Fprintf(state, finfo.message)`, i.e. the external-safe message itself.
This is what `%s` prints for a withCode link. -/
def withCodeFormatS (r : Registry) (w : GoError) : String :=
  (buildFormatInfo r w).message

/-- `Matcher` (aggregation file): a predicate over (non-nil) errors. -/
abbrev Matcher := GoError → Bool

/-- `matchesError`: true when any matcher returns true. -/
def matchesError (e : GoError) (fns : List Matcher) : Bool :=
  fns.any (fun f => f e)

/-- `NewAggregate`: nil for an empty input list; drops nil entries; nil when
nothing remains; otherwise the aggregate over the surviving errors in their
original order. -/
def NewAggregate (errlist : List GoErr) : GoErr :=
  if errlist.isEmpty then none
  else
    let errs := errlist.filterMap id
    if errs.isEmpty then none else some (.agg errs)

mutual

/-- `FilterOut` (aggregation file): nil stays nil; an Aggregate (only the
`aggregate` type implements the interface in this package) has its element
list filtered recursively and rewrapped through `NewAggregate`; any other
error is dropped exactly when some matcher matches it. -/
def FilterOut : GoErr → List Matcher → GoErr
  | none, _ => none
  | some (.agg l), fns => NewAggregate ((filterErrors l fns).map some)
  | some e, fns => if matchesError e fns then none else some e
termination_by oe _ => sizeOf oe
decreasing_by all_goals (simp_wf; try omega)

/-- `filterErrors`: apply `FilterOut` to each element, keeping the non-nil
results in order. -/
def filterErrors : List GoError → List Matcher → List GoError
  | [], _ => []
  | e :: rest, fns =>
    match FilterOut (some e) fns with
    | some r => r :: filterErrors rest fns
    | none => filterErrors rest fns
termination_by l _ => 1 + sizeOf l
decreasing_by all_goals (simp_wf; try omega)

end

/-- `aggregate.Errors()`: the contained collection verbatim. -/
def aggErrors : GoError → List GoError
  | .agg l => l
  | e => [e]

/-- Whether the dynamic type is the aggregate type. -/
def isAgg : GoError → Bool
  | .agg _ => true
  | _ => false

mutual

/-- Specification-side flattening for claims C6/C8: the sequence of
non-aggregate errors contained in a value, recursively flattening nested
aggregates (this is the traversal order of `aggregate.visit`). -/
def flattenOne : GoError → List GoError
  | .agg l => flattenList l
  | e => [e]

def flattenList : List GoError → List GoError
  | [] => []
  | e :: rest => flattenOne e ++ flattenList rest

end

/-- Specification-side first-seen deduplication for claim C6: walk the
messages, skipping any already collected, appending the rest in order.
`seen` is the accumulator of messages already collected. -/
def dedupFirstSeen : List String → List String → List String
  | _, [] => []
  | seen, m :: ms =>
    if m ∈ seen then dedupFirstSeen seen ms
    else m :: dedupFirstSeen (seen ++ [m]) ms

/-- Specification-side join for claim C6: elements joined with ", " (the
first element verbatim, every later element preceded by ", "). -/
def commaJoin : List String → String
  | [] => ""
  | [m] => m
  | m :: rest => m ++ ", " ++ commaJoin rest

/-- Resolved symbol information for one program counter: function name, file,
line as reported by `runtime.FuncForPC(pc)` + `fn.FileLine(pc)`. -/
structure FuncInfo where
  name : String
  file : String
  line : Int
deriving DecidableEq

/-- Oracle standing for the runtime symbol table: `none` models a program
counter for which `runtime.FuncForPC` returns nil (no symbol information). -/
abbrev RuntimeTable := Nat → Option FuncInfo

/-- `type Frame uintptr` (stack file): a program counter + 1. -/
structure Frame where
  val : Nat
deriving DecidableEq

/-- `Frame.pc()`: the frame's value minus one. -/
def Frame.pc (f : Frame) : Nat := f.val - 1

/-- `Frame.file()`: the file of the frame's function, or the literal "unknow"
when the lookup yields no function. -/
def Frame.file (rt : RuntimeTable) (f : Frame) : String :=
  match rt f.pc with
  | none => "unknow"
  | some fn => fn.file

/-- `Frame.line()`: the line of the frame's pc, or 0 when the lookup yields no
function. -/
def Frame.line (rt : RuntimeTable) (f : Frame) : Int :=
  match rt f.pc with
  | none => 0
  | some fn => fn.line

/-- `Frame.name()`: the function's name, or the literal "unknown" when the
lookup yields no function. -/
def Frame.name (rt : RuntimeTable) (f : Frame) : String :=
  match rt f.pc with
  | none => "unknown"
  | some fn => fn.name

/-- Whether the dynamic type is `*withCode` (the assertion of `ParseCoder`). -/
def isWithCode : GoError → Bool
  | .withCode _ _ _ => true
  | _ => false

/-- Flat-list version of the fold performed by `aggregate.Error`'s visit
closure, used to relate `visitCollect` to the flattened message sequence:
same seen-set/result threading, but over an already flattened list of
messages. -/
def seenFold : List String → String → List String → List String × String
  | seen, acc, [] => (seen, acc)
  | seen, acc, m :: ms =>
    if m ∈ seen then seenFold seen acc ms
    else
      seenFold (seen ++ [m])
        (if (seen ++ [m]).length > 1 then acc ++ ", " ++ m else acc ++ m) ms

/-- Join helper exposing the fencepost of the visit closure: `glue b ms`
prepends ", " to every element except that the very first element is bare
when `b` is true (i.e. when nothing had been collected before `ms`). -/
def glue : Bool → List String → String
  | _, [] => ""
  | true, m :: rest => m ++ glue false rest
  | false, m :: rest => ", " ++ m ++ glue false rest

/-- A sample user Coder for code 42, with a non-empty external text. -/
def coder42 : Coder := ⟨42, 404, "custom external", "doc"⟩

/-- The registry after registering `coder42` on top of the initial registry. -/
def r42 : Registry := (42, coder42) :: codes0

/-! Helper lemmas. -/

/-- The verb-'v' no-flag render of a withCode link is the constant "<nil>",
for every registry and every link: `format` hands back a nil buffer pointer,
so the written message is lost and `bytes.Buffer.String()` on the nil buffer
yields "<nil>" (which the trim leaves unchanged). -/
theorem withCodeErrorV_eq (r : Registry) (w : GoError) : withCodeErrorV r w = "<nil>" := rfl

theorem seenFold_append (ms1 ms2 : List String) : ∀ seen acc,
    seenFold seen acc (ms1 ++ ms2) =
      seenFold (seenFold seen acc ms1).1 (seenFold seen acc ms1).2 ms2 := by
  induction ms1 with
  | nil => intro seen acc; simp [seenFold]
  | cons m ms ih =>
    intro seen acc
    simp only [List.cons_append, seenFold]
    by_cases h : m ∈ seen
    · simp [h, ih]
    · simp [h, ih]

/-- The visit closure of `aggregate.Error` processes exactly the flattened
sequence of contained errors: `visitCollect` equals the flat fold `seenFold`
over the messages of `flattenList`. -/
theorem visitCollect_eq_seenFold (l : List GoError) : ∀ seen acc,
    visitCollect l seen acc = seenFold seen acc ((flattenList l).map errorMsg) := by
  match l with
  | [] =>
    intro seen acc
    simp [visitCollect, flattenList, seenFold]
  | .agg inner :: rest =>
    intro seen acc
    have h1 := visitCollect_eq_seenFold inner
    have h2 := visitCollect_eq_seenFold rest
    simp only [visitCollect, flattenList, flattenOne, List.map_append]
    rw [h1, h2, seenFold_append]
  | .fundamental m :: rest =>
    intro seen acc
    have h2 := visitCollect_eq_seenFold rest
    simp only [visitCollect, flattenList, flattenOne, List.singleton_append, List.map_cons,
      seenFold]
    by_cases h : errorMsg (.fundamental m) ∈ seen
    · simp [h, h2]
    · simp [h, h2]
  | .base m :: rest =>
    intro seen acc
    have h2 := visitCollect_eq_seenFold rest
    simp only [visitCollect, flattenList, flattenOne, List.singleton_append, List.map_cons,
      seenFold]
    by_cases h : errorMsg (.base m) ∈ seen
    · simp [h, h2]
    · simp [h, h2]
  | .withMessage c m :: rest =>
    intro seen acc
    have h2 := visitCollect_eq_seenFold rest
    simp only [visitCollect, flattenList, flattenOne, List.singleton_append, List.map_cons,
      seenFold]
    by_cases h : errorMsg (.withMessage c m) ∈ seen
    · simp [h, h2]
    · simp [h, h2]
  | .withStack e :: rest =>
    intro seen acc
    have h2 := visitCollect_eq_seenFold rest
    simp only [visitCollect, flattenList, flattenOne, List.singleton_append, List.map_cons,
      seenFold]
    by_cases h : errorMsg (.withStack e) ∈ seen
    · simp [h, h2]
    · simp [h, h2]
  | .withCode m c cz :: rest =>
    intro seen acc
    have h2 := visitCollect_eq_seenFold rest
    simp only [visitCollect, flattenList, flattenOne, List.singleton_append, List.map_cons,
      seenFold]
    by_cases h : errorMsg (.withCode m c cz) ∈ seen
    · simp [h, h2]
    · simp [h, h2]
termination_by sizeOf l
decreasing_by all_goals (simp_wf; try omega)

/-- Closed form of the flat fold: it extends the seen set by the first-seen
deduplication of the remaining messages and appends their join to the result,
the first globally collected message bare, every later one preceded by ", ". -/
theorem seenFold_closed (ms : List String) : ∀ seen acc,
    seenFold seen acc ms =
      (seen ++ dedupFirstSeen seen ms,
        acc ++ glue seen.isEmpty (dedupFirstSeen seen ms)) := by
  induction ms with
  | nil =>
    intro seen acc
    simp [seenFold, dedupFirstSeen, glue, String.append_empty]
  | cons m ms ih =>
    intro seen acc
    simp only [seenFold, dedupFirstSeen]
    by_cases h : m ∈ seen
    · simp [h, ih]
    · rw [if_neg h, if_neg h, ih]
      cases seen with
      | nil =>
        simp [glue, String.append_assoc]
      | cons x s =>
        have hlen : ((x :: s) ++ [m]).length > 1 := by
          simp [List.length_append]
        rw [if_pos hlen]
        simp [glue, String.append_assoc, List.append_assoc]

/-- The bare-first join is the ", "-join. -/
theorem glue_true_eq_commaJoin (d : List String) : glue true d = commaJoin d := by
  induction d with
  | nil => rfl
  | cons m rest ih =>
    cases rest with
    | nil => simp [glue, commaJoin, String.append_empty]
    | cons m2 r2 =>
      simp only [glue, commaJoin] at *
      rw [← ih]
      simp [glue, String.append_assoc]

/-- `IsCode` decides membership in the withCode-prefix of the cause chain. -/
theorem isCode_iff (e : GoError) (code : Int) :
    IsCode (some e) code = true ↔ code ∈ codeChain e := by
  match e with
  | .withCode m c cz =>
    cases cz with
    | none =>
      by_cases h : c = code
      · simp [IsCode, codeChain, h]
      · simp [IsCode, codeChain, h]
        exact fun hc => absurd hc.symm h
    | some cause =>
      have ih := isCode_iff cause code
      by_cases h : c = code
      · simp [IsCode, codeChain, h]
      · simp [IsCode, codeChain, h, ih]
        exact fun hc => absurd hc.symm h
  | .fundamental m => simp [IsCode, codeChain]
  | .base m => simp [IsCode, codeChain]
  | .withMessage c m => simp [IsCode, codeChain]
  | .withStack e2 => simp [IsCode, codeChain]
  | .agg l => simp [IsCode, codeChain]
termination_by sizeOf e
decreasing_by all_goals (simp_wf; try omega)

/-- `filterErrors` keeps, in order, the non-nil results of filtering each
element. -/
theorem filterErrors_eq (l : List GoError) (fns : List Matcher) :
    filterErrors l fns = l.filterMap (fun e => FilterOut (some e) fns) := by
  induction l with
  | nil => simp [filterErrors]
  | cons e rest ih =>
    simp only [filterErrors, List.filterMap_cons]
    cases h : FilterOut (some e) fns with
    | none => simp [h, ih]
    | some r => simp [h, ih]

/-! Claim theorems. -/

/-- C1 (code bug): the claim says the plain string form (`Error()` and the
default no-flag 'v' render) of a withCode error is the external-safe message
(the registered Coder's non-empty external text, else the link's raw text),
with no location and no code.  On the code, `format` returns a *nil* buffer
pointer (`return jsonData, nil` in format.go), the render loop of
`withCode.Format` assigns it over its buffer variable, and the final
`str.String()` on the nil buffer renders "<nil>" — for every registry and
every withCode link — while the external-safe message of the failing input
(code 42 registered with external text "custom external") is
"custom external"; only the non-'v' verb branch (e.g. `%s`) still prints the
intended external-safe message. -/
theorem withCode_plain_render_collapses_to_nil :
    (∀ (r : Registry) (m : String) (c : Int) (cz : Option GoError),
      withCodeErrorV r (.withCode m c cz) = "<nil>" ∧
      errorMsg (.withCode m c cz) = "<nil>") ∧
    withCodeErrorV r42 (.withCode "raw message" 42 none) = "<nil>" ∧
    (buildFormatInfo r42 (.withCode "raw message" 42 none)).message = "custom external" ∧
    withCodeFormatS r42 (.withCode "raw message" 42 none) = "custom external" ∧
    "<nil>" ≠ "custom external" := by
  refine ⟨fun r m c cz => ⟨rfl, by simp [errorMsg]⟩, rfl, ?_, ?_, by decide⟩
  · simp [buildFormatInfo, lookupCoder, lookupCoder?, r42, coder42]
  · simp [withCodeFormatS, buildFormatInfo, lookupCoder, lookupCoder?, r42, coder42]

/-- C2: wrapping nil is the identity: every wrapping constructor maps the nil
error to the nil error and constructs no link. -/
theorem wrap_nil_is_nil :
    WithStack none = none ∧
    (∀ m, WithMessage none m = none) ∧
    (∀ f, WithMessagef none f = none) ∧
    (∀ m, Wrap none m = none) ∧
    (∀ f, Wrapf none f = none) ∧
    (∀ c f, WrapC none c f = none) :=
  ⟨rfl, fun _ => rfl, fun _ => rfl, fun _ => rfl, fun _ => rfl, fun _ _ => rfl⟩

/-- C3 counterexample: the claim says `Unwrap` on a withStack link returns
exactly the error the link directly wraps.  `Wrap` on a fundamental error
builds a withStack link directly wrapping a withMessage link, and `Unwrap` on
that withStack link returns the fundamental error — the withMessage link's own
cause — not the withMessage link it directly wraps. -/
theorem withStack_unwrap_skips_counterexample :
    Wrap (New "base") "msg" = some (.withStack (.withMessage (.fundamental "base") "msg")) ∧
    unwrapMethod (.withStack (.withMessage (.fundamental "base") "msg")) =
      some (some (.fundamental "base")) ∧
    some (some (.fundamental "base")) ≠
      (some (some (.withMessage (.fundamental "base") "msg")) : Option GoErr) := by
  refine ⟨rfl, rfl, ?_⟩
  simp

/-- C3 amended: withCode and withMessage links unwrap to their immediate
cause, leaves (fundamental, foreign, aggregate) expose no cause; a withStack
link unwraps to the wrapped error itself only when that error has no `Unwrap`
method — when the wrapped error is itself unwrappable, `Unwrap` returns the
wrapped error's own `Unwrap` result, skipping one level (the `Cause` method,
by contrast, does return the immediately wrapped error). -/
theorem unwrap_relation_amended :
    (∀ m c cz, unwrapMethod (.withCode m c cz) = some cz) ∧
    (∀ e m, unwrapMethod (.withMessage e m) = some (some e)) ∧
    (∀ m, unwrapMethod (.fundamental m) = none) ∧
    (∀ m, unwrapMethod (.base m) = none) ∧
    (∀ l, unwrapMethod (.agg l) = none) ∧
    (∀ e, hasUnwrapMethod e = false → unwrapMethod (.withStack e) = some (some e)) ∧
    (∀ e r, unwrapMethod e = some r → unwrapMethod (.withStack e) = some r) ∧
    (∀ e, causeMethod (.withStack e) = some (some e)) := by
  refine ⟨fun _ _ _ => rfl, fun _ _ => rfl, fun _ => rfl, fun _ => rfl, fun _ => rfl,
    ?_, ?_, fun _ => rfl⟩
  · intro e he
    cases e <;> simp_all [hasUnwrapMethod, unwrapMethod]
  · intro e r h
    simp only [unwrapMethod, h]

/-- C3 amended, witness: a withStack link around a fundamental error unwraps
to that error; one around a withMessage link skips to the withMessage link's
cause. -/
theorem unwrap_relation_amended_witness :
    unwrapMethod (.withStack (.fundamental "a")) = some (some (.fundamental "a")) ∧
    unwrapMethod (.withStack (.withMessage (.fundamental "a") "m")) =
      some (some (.fundamental "a")) :=
  ⟨unwrap_relation_amended.2.2.2.2.2.1 (.fundamental "a") rfl,
   unwrap_relation_amended.2.2.2.2.2.2.1 (.withMessage (.fundamental "a") "m")
     (some (.fundamental "a")) rfl⟩

/-- C4: `IsCode` is true exactly when the code occurs in the withCode-prefix
of the direct cause chain (it recurses only through the `cause` field of
withCode links and stops at the first non-withCode link; nil and non-chain
errors give false), and the doubly wrapped example carries 200 and 100 but
not 999. -/
theorem isCode_direct_cause_chain :
    (∀ code, IsCode none code = false) ∧
    (∀ (e : GoError) (code : Int), IsCode (some e) code = true ↔ code ∈ codeChain e) ∧
    IsCode (WrapC (WrapC (New "baseErr") 100 "a") 200 "b") 200 = true ∧
    IsCode (WrapC (WrapC (New "baseErr") 100 "a") 200 "b") 100 = true ∧
    IsCode (WrapC (WrapC (New "baseErr") 100 "a") 200 "b") 999 = false := by
  refine ⟨fun code => by simp [IsCode], isCode_iff, ?_, ?_, ?_⟩
  · simp [IsCode, WrapC, New]
  · simp [IsCode, WrapC, New]
  · simp [IsCode, WrapC, New]

/-- C5 counterexample: the claim says `ParseCoder` returns the registered
Coder when the error "is, or chains through to, a withCode link".  A
withMessage annotation over a withCode link with registered code 42 chains
through to that link, yet `ParseCoder` — which inspects only the top-level
dynamic type — returns the unknown Coder, not the Coder registered for 42. -/
theorem parseCoder_chain_counterexample :
    WithMessage (WithCode 42 "m") "anno" =
      some (.withMessage (.withCode "m" 42 none) "anno") ∧
    ParseCoder r42 (WithMessage (WithCode 42 "m") "anno") = some unknownCoder ∧
    lookupCoder? r42 42 = some coder42 ∧
    unknownCoder ≠ coder42 := by
  refine ⟨rfl, rfl, by simp [lookupCoder?, r42], by decide⟩

/-- C5 amended: `ParseCoder` returns nothing for the nil error; for an error
that is *itself* a withCode link it returns the Coder registered for that
link's code (the unknown Coder when the code was never registered); for every
other error value — even one whose cause chain contains a withCode link — it
returns the unknown Coder. -/
theorem parseCoder_amended :
    (∀ r, ParseCoder r none = none) ∧
    (∀ r m c cz, ParseCoder r (some (.withCode m c cz)) = some (lookupCoder r c)) ∧
    (∀ r e, isWithCode e = false → ParseCoder r (some e) = some unknownCoder) ∧
    ParseCoder r42 (WithCode 42 "m") = some coder42 ∧
    ParseCoder codes0 (WithCode 42 "m") = some unknownCoder := by
  refine ⟨fun _ => rfl, ?_, ?_, rfl, rfl⟩
  · intro r m c cz
    cases h : lookupCoder? r c <;> simp [ParseCoder, lookupCoder, h]
  · intro r e he
    cases e <;> simp_all [ParseCoder, isWithCode]

/-- C5 amended, witness: a fundamental error parses to the unknown Coder. -/
theorem parseCoder_amended_witness :
    ParseCoder r42 (some (.fundamental "x")) = some unknownCoder :=
  parseCoder_amended.2.2.1 r42 (.fundamental "x") rfl

/-- C6: the `Error()` text of an aggregate of two or more elements collects
the distinct messages of the flattened contained errors in first-seen order,
joins them with ", ", brackets the join exactly when more than one distinct
message was found, and on the three-element example with a duplicated "x"
message yields exactly "[x, y]". -/
theorem aggregate_error_dedup_join :
    (∀ l : List GoError, 2 ≤ l.length →
      errorMsg (.agg l) =
        (if (dedupFirstSeen [] ((flattenList l).map errorMsg)).length = 1
         then commaJoin (dedupFirstSeen [] ((flattenList l).map errorMsg))
         else "[" ++ commaJoin (dedupFirstSeen [] ((flattenList l).map errorMsg)) ++ "]")) ∧
    NewAggregate [some (.fundamental "x"), some (.base "x"), some (.fundamental "y")] =
      some (.agg [.fundamental "x", .base "x", .fundamental "y"]) ∧
    errorMsg (.agg [.fundamental "x", .base "x", .fundamental "y"]) = "[x, y]" := by
  refine ⟨?_, rfl, by simp [errorMsg, visitCollect]⟩
  intro l h
  match l with
  | [] => exact absurd h (by simp)
  | [e] => exact absurd h (by simp)
  | a :: b :: rest =>
    have hv : visitCollect (a :: b :: rest) [] "" =
        (dedupFirstSeen [] ((flattenList (a :: b :: rest)).map errorMsg),
         commaJoin (dedupFirstSeen [] ((flattenList (a :: b :: rest)).map errorMsg))) := by
      rw [visitCollect_eq_seenFold, seenFold_closed]
      simp [glue_true_eq_commaJoin]
    simp only [errorMsg, hv]

/-- C6, witness: the general statement applied to the three-element example
list. -/
theorem aggregate_error_dedup_join_witness :
    2 ≤ ([GoError.fundamental "x", GoError.base "x", GoError.fundamental "y"] : List GoError).length ∧
    errorMsg (.agg [.fundamental "x", .base "x", .fundamental "y"]) =
      (if (dedupFirstSeen []
            ((flattenList [GoError.fundamental "x", GoError.base "x", GoError.fundamental "y"]).map errorMsg)).length = 1
       then commaJoin (dedupFirstSeen []
              ((flattenList [GoError.fundamental "x", GoError.base "x", GoError.fundamental "y"]).map errorMsg))
       else "[" ++ commaJoin (dedupFirstSeen []
              ((flattenList [GoError.fundamental "x", GoError.base "x", GoError.fundamental "y"]).map errorMsg)) ++ "]") :=
  ⟨by decide,
   aggregate_error_dedup_join.1
     [GoError.fundamental "x", GoError.base "x", GoError.fundamental "y"] (by decide)⟩

/-- C7: `NewAggregate` drops nil entries and yields the nil error when the
input is empty or all-nil; any input with a surviving element yields the
aggregate over the filtered collection in original order; the aggregate over
a single element renders exactly that element's own text. -/
theorem newAggregate_filters_and_preserves :
    NewAggregate [] = none ∧
    NewAggregate [none, none] = none ∧
    (∀ l, NewAggregate l =
      if (l.filterMap id).isEmpty then none else some (.agg (l.filterMap id))) ∧
    (∀ e, NewAggregate [some e] = some (.agg [e])) ∧
    (∀ e, errorMsg (.agg [e]) = errorMsg e) := by
  refine ⟨rfl, rfl, ?_, fun e => rfl, fun e => by simp [errorMsg]⟩
  intro l
  cases l with
  | nil => simp [NewAggregate]
  | cons x xs => simp [NewAggregate]

/-- C8 counterexample: the claim says filtering an Aggregate flattens nested
aggregates into the rewrapped survivor list.  Filtering nothing out of the
aggregate `[[a], b]` returns the aggregate unchanged — the nested aggregate is
rewrapped in place, not flattened into `[a, b]`. -/
theorem filterOut_no_flatten_counterexample :
    FilterOut (some (.agg [.agg [.fundamental "a"], .fundamental "b"])) [] =
      some (.agg [.agg [.fundamental "a"], .fundamental "b"]) ∧
    FilterOut (some (.agg [.agg [.fundamental "a"], .fundamental "b"])) [] ≠
      some (.agg [.fundamental "a", .fundamental "b"]) := by
  have h : FilterOut (some (.agg [.agg [.fundamental "a"], .fundamental "b"])) [] =
      some (.agg [.agg [.fundamental "a"], .fundamental "b"]) := by
    simp [FilterOut, filterErrors, NewAggregate, matchesError]
  refine ⟨h, ?_⟩
  rw [h]
  simp

/-- C8 amended: `FilterOut` returns nil for a nil input and for a single
non-aggregate error matched by some matcher, and returns any other
non-aggregate error unchanged; for an Aggregate it recursively filters each
contained error in order (nested aggregates are themselves recursively
filtered and rewrapped in place, preserving the nesting structure), drops the
nil results and rewraps the survivors through `NewAggregate` (nil if none
survive); filtering e2 out of the aggregate `[e1, e2, e3]` yields the
aggregate of exactly `[e1, e3]`. -/
theorem filterOut_amended :
    (∀ fns, FilterOut none fns = none) ∧
    (∀ e fns, isAgg e = false →
      FilterOut (some e) fns = if matchesError e fns then none else some e) ∧
    (∀ l fns, FilterOut (some (.agg l)) fns =
      NewAggregate ((l.filterMap (fun e => FilterOut (some e) fns)).map some)) ∧
    FilterOut
        (NewAggregate
          [some (.fundamental "e1"), some (.fundamental "e2"), some (.fundamental "e3")])
        [fun e => decide (errorMsg e = "e2")] =
      some (.agg [.fundamental "e1", .fundamental "e3"]) := by
  refine ⟨fun _ => by simp [FilterOut], ?_, ?_, ?_⟩
  · intro e fns he
    cases e <;> simp_all [FilterOut, isAgg]
  · intro l fns
    simp [FilterOut, filterErrors_eq]
  · simp [NewAggregate, FilterOut, filterErrors, matchesError, errorMsg]

/-- C8 amended, witness: a matched single error filters to nil via the
amended statement's non-aggregate clause. -/
theorem filterOut_amended_witness :
    isAgg (GoError.fundamental "e2") = false ∧
    FilterOut (some (.fundamental "e2")) [fun e => decide (errorMsg e = "e2")] =
      (if matchesError (.fundamental "e2") [fun e => decide (errorMsg e = "e2")] then none
       else some (.fundamental "e2")) :=
  ⟨rfl, filterOut_amended.2.1 (.fundamental "e2") [fun e => decide (errorMsg e = "e2")] rfl⟩

/-- C9: registering code 0 always aborts (for both registration functions);
`MustRegister` aborts when called again with the same code after a successful
registration; `Register` succeeds twice with the same nonzero code and the
second Coder is the one `lookup` subsequently returns for that code. -/
theorem registration_policy :
    (∀ r k, k.C = 0 → Register r k = none ∧ MustRegister r k = none) ∧
    (∀ r r2 k1 k2, k2.C = k1.C →
      MustRegister r k1 = some r2 → MustRegister r2 k2 = none) ∧
    (∀ r k1 k2, k1.C ≠ 0 → k2.C = k1.C →
      ∃ r1 r2, Register r k1 = some r1 ∧ Register r1 k2 = some r2 ∧
        lookupCoder r2 k1.C = k2) := by
  refine ⟨?_, ?_, ?_⟩
  · intro r k h
    simp [Register, MustRegister, h]
  · intro r r2 k1 k2 hc h
    by_cases h0 : k1.C = 0
    · simp [MustRegister, h0] at h
    · rcases h1 : lookupCoder? r k1.C with _ | co
      · simp [MustRegister, h0, h1] at h
        subst h
        simp [MustRegister, hc, h0, lookupCoder?]
      · simp [MustRegister, h0, h1] at h
  · intro r k1 k2 h0 hc
    refine ⟨(k1.C, k1) :: r, (k2.C, k2) :: (k1.C, k1) :: r, ?_, ?_, ?_⟩
    · simp [Register, h0]
    · rw [hc]
      simp [Register, hc, h0]
    · simp [lookupCoder, lookupCoder?, hc]

/-- C9, witness: the policy at concrete Coders — code 0 aborts, a duplicate
`MustRegister` of code 7 aborts, a duplicate `Register` of code 7 succeeds
with the second Coder winning the lookup. -/
theorem registration_policy_witness :
    (Register codes0 ⟨0, 1, "z", "w"⟩ = none ∧ MustRegister codes0 ⟨0, 1, "z", "w"⟩ = none) ∧
    MustRegister ((7, (⟨7, 1, "a", "d"⟩ : Coder)) :: codes0) ⟨7, 2, "b", "d"⟩ = none ∧
    (∃ r1 r2, Register codes0 (⟨7, 1, "a", "d"⟩ : Coder) = some r1 ∧
      Register r1 (⟨7, 2, "b", "d"⟩ : Coder) = some r2 ∧
      lookupCoder r2 (7 : Int) = ⟨7, 2, "b", "d"⟩) :=
  ⟨registration_policy.1 codes0 ⟨0, 1, "z", "w"⟩ rfl,
   registration_policy.2.1 codes0 ((7, ⟨7, 1, "a", "d"⟩) :: codes0)
     ⟨7, 1, "a", "d"⟩ ⟨7, 2, "b", "d"⟩ rfl (by decide),
   registration_policy.2.2 codes0 ⟨7, 1, "a", "d"⟩ ⟨7, 2, "b", "d"⟩ (by decide) rfl⟩

/-- C10 (code bug): the claim (with the spec) says a frame whose location
cannot be resolved degrades its file and function components to the sentinel
"unknown" (line to a benign 0), never failing.  The code's `name()` does
return "unknown" and `line()` returns 0, but `file()` returns the misspelled
literal "unknow". -/
theorem frame_unresolved_sentinel_divergence :
    Frame.file (fun _ => none) ⟨1⟩ = "unknow" ∧
    Frame.name (fun _ => none) ⟨1⟩ = "unknown" ∧
    Frame.line (fun _ => none) ⟨1⟩ = 0 ∧
    "unknow" ≠ "unknown" :=
  ⟨rfl, rfl, rfl, by decide⟩

end TErrors
